import Mathlib

/-!
Verification development for a Hearts game server (rules engine, trick
resolver, passing coordinator, round/session state machine).

The definitions below are a shallow embedding of the TypeScript source:
`card.ts` (card model), `player.ts` (seat state), `game.ts` (the `Game`
class).  Player identifiers are modelled as seat indices into the
`players` list, which plays the role of both the `players` map and the
`playerOrder` array (the map is keyed in insertion order, which is
exactly `playerOrder`).  Outbound communication (`broadcast` /
`sendToPlayer`) is modelled as an explicit list of (destination,
message) pairs returned by each handler.
-/

/-- Card suits; declaration order matches the `Suit` enum in types.ts
(Hearts, Diamonds, Clubs, Spades), which is the order `Object.values(Suit)`
produces in `createDeck`. -/
inductive Suit where
  | Hearts | Diamonds | Clubs | Spades
deriving DecidableEq

/-- Card ranks; declaration order matches the `Rank` enum in types.ts
(Two .. Ace), which is the order `Object.values(Rank)` produces, used both
by `createDeck` and by the `rankOrder.indexOf` comparisons. -/
inductive Rank where
  | Two | Three | Four | Five | Six | Seven | Eight | Nine | Ten
  | Jack | Queen | King | Ace
deriving DecidableEq

/-- Value of `rankOrder.indexOf r` for `rankOrder = Object.values(Rank)`. -/
def rankIdx : Rank → Nat
  | .Two => 0 | .Three => 1 | .Four => 2 | .Five => 3 | .Six => 4
  | .Seven => 5 | .Eight => 6 | .Nine => 7 | .Ten => 8
  | .Jack => 9 | .Queen => 10 | .King => 11 | .Ace => 12

/-- Value of `suitOrder.indexOf s` for `suitOrder = [Clubs, Diamonds, Spades, Hearts]`
(the hand-sorting order in `compareCards`). -/
def suitSortIdx : Suit → Nat
  | .Clubs => 0 | .Diamonds => 1 | .Spades => 2 | .Hearts => 3

/-- A playing card, equality by (suit, rank) — `Card` in types.ts. -/
structure Card where
  suit : Suit
  rank : Rank
deriving DecidableEq

/-- Embeds `getCardValue` from card.ts: Hearts are worth 1, the Queen of Spades 13,
everything else 0. -/
def getCardValue (c : Card) : Nat :=
  if c.suit = Suit.Hearts then 1
  else if c.suit = Suit.Spades ∧ c.rank = Rank.Queen then 13
  else 0

/-- Embeds `isQueenOfSpades` from card.ts. -/
def isQueenOfSpades (c : Card) : Bool :=
  c.suit == Suit.Spades && c.rank == Rank.Queen

/-- All ranks in enum declaration order. -/
def allRanks : List Rank :=
  [.Two, .Three, .Four, .Five, .Six, .Seven, .Eight, .Nine, .Ten,
   .Jack, .Queen, .King, .Ace]

/-- All suits in enum declaration order. -/
def allSuits : List Suit := [.Hearts, .Diamonds, .Clubs, .Spades]

/-- Embeds `createDeck` from card.ts: for each suit, each rank, in enum order. -/
def createDeck : List Card :=
  (allSuits.map (fun s => allRanks.map (fun r => Card.mk s r))).flatten

/-- Decides `compareCards a b <= 0`: suit by `suitOrder`, then rank by `rankOrder`. -/
def cardLE (a b : Card) : Bool :=
  if suitSortIdx a.suit = suitSortIdx b.suit
  then rankIdx a.rank ≤ rankIdx b.rank
  else suitSortIdx a.suit < suitSortIdx b.suit

/-- Insert a card into a list sorted by `cardLE`. -/
def insertSorted (c : Card) : List Card → List Card
  | [] => [c]
  | d :: ds => if cardLE c d then c :: d :: ds else d :: insertSorted c ds

/-- Embeds `hand.sort(compareCards)`: since `compareCards` is a total order on the
distinct cards of a hand, any comparison sort produces the same list as
this insertion sort. -/
def sortHand (h : List Card) : List Card := h.foldr insertSorted []

/-- Seat state, from the `Player` class in player.ts (identity and the
WebSocket are carried by the seat index / the transport layer). -/
structure Player where
  hand : List Card
  score : Nat
  roundScore : Nat
  cardsToPass : Option (List Card)
deriving DecidableEq

/-- Embeds `Trick` from types.ts; player ids are seat indices. -/
structure Trick where
  leadingSuit : Option Suit
  cards : List (Nat × Card)
  trickWinnerId : Option Nat
deriving DecidableEq

/-- Embeds `GamePhase` from types.ts. -/
inductive GamePhase where
  | WaitingForPlayers | Passing | PassingComplete | PlayingTrick
  | TrickComplete | RoundScoring | RoundOver | GameOver
deriving DecidableEq

/-- Embeds `PassingDirection` from types.ts. -/
inductive PassingDirection where
  | Left | Right | Across | Hold
deriving DecidableEq

/-- Destination of an outbound message: `broadcast` or `sendToPlayer`. -/
inductive Dest where
  | all
  | one (seat : Nat)
deriving DecidableEq

/-- Outbound message kinds (`ServerToClientMessageType`); only the error
payload (the reason string) is retained, the other payloads are derived
from the state snapshot and irrelevant to the claims. -/
inductive OutMsg where
  | error (msg : String)
  | gameStateUpdate
  | cardsPassed
  | trickWon
  | yourTurn
deriving DecidableEq

/-- Inbound commands handled by `Game.handleMessage`. -/
inductive ClientMsg where
  | selectCardsToPass (cards : List Card)
  | playCard (card : Card)
deriving DecidableEq

/-- The mutable state of the `Game` class (the fields the rules logic
reads and writes; gameId and the callbacks are transport concerns). -/
structure GameState where
  players : List Player
  currentPlayerIndex : Int
  currentTrick : Trick
  heartsBroken : Bool
  phase : GamePhase
  passingDirection : Option PassingDirection
  roundNumber : Nat
deriving DecidableEq

/-- Embeds `createEmptyTrick`. -/
def createEmptyTrick : Trick := { leadingSuit := none, cards := [], trickWinnerId := none }

/-- True when an outbound batch contains an error message. -/
def hasError (outs : List (Dest × OutMsg)) : Bool :=
  outs.any (fun o => match o.2 with | OutMsg.error _ => true | _ => false)

/-- Embeds `getCurrentPlayerId`: `null` when the index is out of range of
`playerOrder`, otherwise the seat at that index. -/
def getCurrentPlayerId (g : GameState) : Option Nat :=
  if g.currentPlayerIndex < 0 ∨ (g.players.length : Int) ≤ g.currentPlayerIndex
  then none
  else some g.currentPlayerIndex.toNat

/-- Embeds `isFirstTrick`: the original's heuristic — the seat at `playerOrder[0]`
still holds 13 cards (`undefined === 13` is false when there is no seat). -/
def isFirstTrick (g : GameState) : Bool :=
  match g.players.head? with
  | some p => p.hand.length == 13
  | none => false

/-- Embeds `isValidPlay` from game.ts, with the rejection reason made explicit:
`none` means the play is valid, `some msg` is the reason `sendError`
would ship to the player.  The branch structure mirrors the source: the
first-trick/first-player branch returns from both of its arms, so the
later rules only run when that branch is not taken. -/
def validPlayCheck (g : GameState) (p : Player) (card : Card) : Option String :=
  let hand := p.hand
  let isFirstPlayerInTrick : Bool := g.currentTrick.cards.isEmpty
  let leadingSuit := g.currentTrick.leadingSuit
  if !(hand.any (fun c => c == card)) then
    some "Invalid play: Card not in hand."
  else if isFirstTrick g && isFirstPlayerInTrick then
    (if !(card.suit == Suit.Clubs) || !(card.rank == Rank.Two) then
      some "Invalid play: Must lead with the 2 of Clubs on the first trick."
    else none)
  else if isFirstTrick g && decide (0 < getCardValue card)
          && !(hand.all (fun c => decide (0 < getCardValue c))) then
    some "Invalid play: Cannot play Hearts or Queen of Spades on the first trick unless it is all you have."
  else if !isFirstPlayerInTrick && leadingSuit.isSome
          && hand.any (fun c => leadingSuit == some c.suit)
          && !(leadingSuit == some card.suit) then
    some "Invalid play: Must follow the leading suit."
  else if isFirstPlayerInTrick && card.suit == Suit.Hearts && !g.heartsBroken
          && !(hand.all (fun c => c.suit == Suit.Hearts)) then
    some "Invalid play: Cannot lead with Hearts until they are broken."
  else none

/-- Boolean view of `isValidPlay`. -/
def isValidPlay (g : GameState) (p : Player) (card : Card) : Bool :=
  (validPlayCheck g p card).isNone

/-- Embeds `calculateValidMoves` from game.ts, translated clause by clause,
including the two explicit fallbacks of the source. -/
def calculateValidMoves (g : GameState) (p : Player) : List Card :=
  let hand := p.hand
  let isFirstPlayerInTrick : Bool := g.currentTrick.cards.isEmpty
  let leadingSuit := g.currentTrick.leadingSuit
  if isFirstTrick g && isFirstPlayerInTrick then
    match hand.find? (fun c => c.rank == Rank.Two && c.suit == Suit.Clubs) with
    | some c => [c]
    | none => []
  else
    let canFollowSuit : Bool :=
      match leadingSuit with
      | some ls => hand.any (fun c => c.suit == ls)
      | none => false
    let isFirst := isFirstTrick g
    let canPlayPointsOnFirstTrick : Bool := hand.all (fun c => decide (0 < getCardValue c))
    let canLeadHearts : Bool := g.heartsBroken || hand.all (fun c => c.suit == Suit.Hearts)
    let validMoves := hand.filter (fun card =>
      !(isFirst && decide (0 < getCardValue card) && !canPlayPointsOnFirstTrick) &&
      !(leadingSuit.isSome && canFollowSuit && !(leadingSuit == some card.suit)) &&
      !(isFirstPlayerInTrick && card.suit == Suit.Hearts && !canLeadHearts))
    if leadingSuit.isSome && !canFollowSuit then
      let nonFollowMoves := hand.filter (fun card =>
        !(isFirst && decide (0 < getCardValue card) && !canPlayPointsOnFirstTrick))
      if 0 < nonFollowMoves.length then nonFollowMoves else hand
    else if validMoves.length == 0 && 0 < hand.length then hand
    else validMoves

/-- One step of the winner scan in `calculateTrickWinner`: replace the
current winner when the candidate matches the leading suit and has a
strictly higher rank index. -/
def trickStep (s : Suit) (w e : Nat × Card) : Nat × Card :=
  if e.2.suit == s && decide (rankIdx w.2.rank < rankIdx e.2.rank) then e else w

/-- Embeds `calculateTrickWinner` from game.ts; the throw on an empty trick or an
unset leading suit is modelled as `none`. -/
def calculateTrickWinner (t : Trick) : Option (Nat × Card) :=
  match t.leadingSuit, t.cards with
  | some s, e0 :: rest => some (rest.foldl (trickStep s) e0)
  | some _, [] => none
  | none, _ => none

/-- The shoot-the-moon scan in `endRound`: the first seat (in `playerOrder`
order, which iteration of the players map follows) whose round score is
exactly 26. -/
def findShooter : List Player → Option Nat
  | [] => none
  | p :: ps => if p.roundScore == 26 then some 0 else (findShooter ps).map (· + 1)

/-- Score assignment of `endRound` in the shooter case: the shooter's seat
adds 0, every other seat adds 26 (indexing from `i`). -/
def bumpOthers (si : Nat) : Nat → List Player → List Player
  | _, [] => []
  | i, p :: ps =>
      (if i = si then { p with score := p.score + 0 }
       else { p with score := p.score + 26 }) :: bumpOthers si (i + 1) ps

/-- The scoring step of `endRound` in game.ts: if some seat has round score
26 it is the shooter (first found) and the totals are updated shooter +0 /
others +26; otherwise every seat adds its own round score. -/
def endRoundScores (ps : List Player) : List Player :=
  match findShooter ps with
  | some si => bumpOthers si 0 ps
  | none => ps.map (fun p => { p with score := p.score + p.roundScore })

/-- The winner scan of `endGame` in game.ts: `lowestScore` starts at
`Infinity` (modelled as `none`) and a seat replaces the winner only on a
strictly lower total, so the result is the first seat attaining the
minimum total. -/
def endGameWinnerAux : Nat → Option (Nat × Nat) → List Player → Option (Nat × Nat)
  | _, acc, [] => acc
  | i, none, p :: ps => endGameWinnerAux (i + 1) (some (i, p.score)) ps
  | i, some (w, l), p :: ps =>
      if p.score < l then endGameWinnerAux (i + 1) (some (i, p.score)) ps
      else endGameWinnerAux (i + 1) (some (w, l)) ps

/-- The seat announced as `winner` in the `GameOver` payload. -/
def endGameWinner (ps : List Player) : Option Nat :=
  (endGameWinnerAux 0 none ps).map (fun wl => wl.1)

/-- Embeds `dealCards` from game.ts: card `i` of the deck goes to the seat at
index `i % 4` of `playerOrder` (pushed in deck order), then every hand is
sorted by `compareCards`. -/
def dealCards (deck : List Card) (n : Nat) : List (List Card) :=
  (List.range n).map (fun j =>
    sortHand ((deck.enum.filter (fun ic => ic.1 % n == j)).map (fun ic => ic.2)))

/-- Embeds `findPlayerWithTwoOfClubs`: first seat whose hand contains the Two of
Clubs, defaulting to seat 0 when none is found. -/
def findTwoClubs (ps : List Player) : Nat :=
  match ps.findIdx? (fun p => p.hand.any (fun c => c.rank == Rank.Two && c.suit == Suit.Clubs)) with
  | some i => i
  | none => 0

/-- Embeds `notifyCurrentPlayerTurn`: a `YourTurn` message to the current seat
when the phase is `PlayingTrick`. -/
def notifyCurrentPlayerTurn (g : GameState) : List (Dest × OutMsg) :=
  match getCurrentPlayerId g with
  | some pid => if g.phase == GamePhase.PlayingTrick then [(Dest.one pid, OutMsg.yourTurn)] else []
  | none => []

/-- Target seat index of `executePassing` for seat `i` of `n`. -/
def passTargetIdx (dir : PassingDirection) (i n : Nat) : Nat :=
  match dir with
  | .Left => (i + 1) % n
  | .Right => (i + n - 1) % n
  | .Across => (i + 2) % n
  | .Hold => i

/-- Embeds `executePassing` from game.ts: build the target map from every seat's
staged cards, merge each seat's received cards into its hand, sort,
clear the staging fields, then enter `PlayingTrick` with the Two of Clubs
holder to lead. -/
def executePassing (g : GameState) : GameState × List (Dest × OutMsg) :=
  match g.passingDirection with
  | none => (g, [])
  | some PassingDirection.Hold => (g, [])
  | some dir =>
    let n := g.players.length
    let assignments := (List.range n).map (fun i =>
      (passTargetIdx dir i n, (((g.players.get? i).bind (fun p => p.cardsToPass)).getD [])))
    let receivedFor : Nat → List Card := fun j =>
      (((assignments.reverse.find? (fun a => a.1 == j)).map (fun a => a.2)).getD [])
    let players' := g.players.enum.map (fun jp =>
      { jp.2 with hand := sortHand (jp.2.hand ++ receivedFor jp.1), cardsToPass := none })
    let passMsgs := (List.range n).map (fun j => (Dest.one j, OutMsg.cardsPassed))
    let g' : GameState :=
      { g with players := players',
               phase := GamePhase.PlayingTrick,
               currentPlayerIndex := (findTwoClubs players' : Int) }
    (g', passMsgs ++ [(Dest.all, OutMsg.gameStateUpdate)] ++ notifyCurrentPlayerTurn g')

/-- Embeds `handlePassCards` from game.ts.  Every `throw new Error(...)` is an
`Except.error`; all of them fire before any state is mutated.  On
success the selection is staged, the selected cards are filtered out of
the hand, and when every seat has staged a selection `executePassing`
runs immediately. -/
def handlePassCards (g : GameState) (seat : Nat) (cardsToPass : List Card) :
    Except String (GameState × List (Dest × OutMsg)) :=
  if cardsToPass.length ≠ 3 then
    Except.error "Invalid number of cards selected. Please select 3."
  else
    match g.players.get? seat with
    | none => Except.ok (g, [])
    | some p =>
      if p.cardsToPass.isSome then
        Except.error "You have already selected cards to pass."
      else if !(cardsToPass.all (fun c => p.hand.any (fun hc => hc == c))) then
        Except.error "Invalid card selected or card not in hand."
      else
        let p' := { p with
          cardsToPass := some cardsToPass,
          hand := p.hand.filter (fun hc => !(cardsToPass.any (fun pc => pc == hc))) }
        let g1 := { g with players := g.players.set seat p' }
        let msgs1 := [(Dest.one seat, OutMsg.gameStateUpdate)]
        if g1.players.all (fun q => q.cardsToPass.isSome) then
          let r := executePassing g1
          Except.ok (r.1, msgs1 ++ r.2)
        else
          Except.ok (g1, msgs1 ++ [(Dest.all, OutMsg.gameStateUpdate)])

/-- The synchronous part of `endTrick` (everything before the
`setTimeout` continuation): enter `TrickComplete`, resolve the winner,
credit the trick's points to the winner's round score, broadcast
`TrickWon`.  The two hard-failure paths of the source (the resolver's
throw and the `players.get(winnerId)!` lookup on a corrupt id) surface
as an error message to the sender with the mutations so far kept, which
is what the `try/catch` in `handleMessage` does. -/
def endTrickSync (g : GameState) (senderPid : Nat) : GameState × List (Dest × OutMsg) :=
  let g1 := { g with phase := GamePhase.TrickComplete }
  match calculateTrickWinner g1.currentTrick with
  | none =>
      (g1, [(Dest.one senderPid,
             OutMsg.error "Cannot determine winner of an empty or non-started trick.")])
  | some wc =>
    let g2 := { g1 with currentTrick := { g1.currentTrick with trickWinnerId := some wc.1 } }
    match g2.players.get? wc.1 with
    | none => (g2, [(Dest.one senderPid, OutMsg.error "Internal error: winner not found.")])
    | some wp =>
      let pts := (g2.currentTrick.cards.map (fun e => getCardValue e.2)).sum
      let g3 := { g2 with players := g2.players.set wc.1 { wp with roundScore := wp.roundScore + pts } }
      (g3, [(Dest.all, OutMsg.trickWon)])

/-- Embeds `findIndex` followed by `splice(idx, 1)` on a hand: `none` when the card is
absent (`findIndex === -1`), otherwise the hand with the first matching
occurrence removed. -/
def spliceFirst (card : Card) : List Card → Option (List Card)
  | [] => none
  | c :: cs =>
      if c == card then some cs
      else (spliceFirst card cs).map (fun r => c :: r)

/-- Embeds `handlePlayCard` from game.ts: validate, remove the card from the
hand (first matching index), append to the trick (recording the leading
suit when this is the trick's first card), set `heartsBroken` on a Heart
(the Queen-of-Spades block of the source is commented out and does
nothing), then either finish the trick or advance the turn. -/
def handlePlayCard (g : GameState) (seat : Nat) (card : Card) : GameState × List (Dest × OutMsg) :=
  match g.players.get? seat with
  | none => (g, [])
  | some p =>
    match validPlayCheck g p card with
    | some msg => (g, [(Dest.one seat, OutMsg.error msg)])
    | none =>
      match spliceFirst card p.hand with
      | none => (g, [(Dest.one seat, OutMsg.error "Card not found in your hand.")])
      | some newHand =>
        let p' := { p with hand := newHand }
        let trick0 := g.currentTrick
        let newCards := trick0.cards ++ [(seat, card)]
        let newLead := if newCards.length == 1 then some card.suit else trick0.leadingSuit
        let hb := if card.suit == Suit.Hearts && !g.heartsBroken then true else g.heartsBroken
        let g1 : GameState :=
          { g with players := g.players.set seat p',
                   currentTrick := { trick0 with cards := newCards, leadingSuit := newLead },
                   heartsBroken := hb }
        if newCards.length == g1.players.length then
          let r := endTrickSync g1 seat
          (r.1, (Dest.all, OutMsg.gameStateUpdate) :: r.2)
        else
          let g2 := { g1 with
            currentPlayerIndex := Int.tmod (g1.currentPlayerIndex + 1) (g1.players.length : Int) }
          (g2, [(Dest.all, OutMsg.gameStateUpdate)] ++ notifyCurrentPlayerTurn g2)

/-- Embeds `handleMessage` from game.ts: unknown players are ignored; a
`SelectCardsToPass` outside the `Passing` phase and a `PlayCard` outside
`PlayingTrick` or out of turn are rejected with an error to the sender
(`playerId === player.id` in the source is trivially true, the player
having been fetched by `playerId`); thrown errors from the handlers are
caught and shipped to the sender with no further state change. -/
def handleMessage (g : GameState) (pid : Nat) (m : ClientMsg) : GameState × List (Dest × OutMsg) :=
  match g.players.get? pid with
  | none => (g, [])
  | some _ =>
    match m with
    | ClientMsg.selectCardsToPass cards =>
      if g.phase == GamePhase.Passing then
        match handlePassCards g pid cards with
        | Except.ok r => r
        | Except.error msg => (g, [(Dest.one pid, OutMsg.error msg)])
      else (g, [(Dest.one pid, OutMsg.error "Cannot pass cards at this time.")])
    | ClientMsg.playCard card =>
      if g.phase == GamePhase.PlayingTrick && getCurrentPlayerId g == some pid then
        handlePlayCard g pid card
      else (g, [(Dest.one pid, OutMsg.error "Not your turn or not in playing phase.")])

/-- All cards in play: every seat's hand, the cards of the current trick,
and every seat's pass staging, as a combined list (multiset). -/
def cardsUnion (g : GameState) : List Card :=
  (g.players.map (fun p => p.hand)).flatten
    ++ g.currentTrick.cards.map (fun e => e.2)
    ++ (g.players.map (fun p => p.cardsToPass.getD [])).flatten

/-- The state `startNewRound` reaches at round 1 for a given shuffle
outcome: hearts unbroken, empty trick, passing direction Left
(`(1-1) % 4 = 0`), 13 sorted cards dealt round-robin to each seat, phase
`Passing`.  `deck` is the shuffled deck; the identity shuffle is one of
the possible outcomes of `shuffleDeck`. -/
def dealtStateRound1 (deck : List Card) : GameState :=
  { players := (dealCards deck 4).map (fun h =>
      { hand := h, score := 0, roundScore := 0, cardsToPass := none }),
    currentPlayerIndex := -1,
    currentTrick := createEmptyTrick,
    heartsBroken := false,
    phase := GamePhase.Passing,
    passingDirection := some PassingDirection.Left,
    roundNumber := 1 }

/-- All cards of one suit for the given ranks. -/
def ofSuit (s : Suit) (rs : List Rank) : List Card := rs.map (fun r => Card.mk s r)

/-- A seat used in concrete end-of-game score scenarios. -/
def seatWithScore (s : Nat) : Player :=
  { hand := [], score := s, roundScore := 0, cardsToPass := none }

/-- The Queen of Spades. -/
def qSpades : Card := ⟨Suit.Spades, Rank.Queen⟩

/-- The Four of Clubs (a card seat 0 holds after the round-robin deal of
an unshuffled deck). -/
def fourClubs : Card := ⟨Suit.Clubs, Rank.Four⟩

/-- The freshly dealt round-1 state for the unshuffled deck: a reachable
state of a started round (four joins, round start, identity shuffle). -/
def g0deal : GameState := dealtStateRound1 createDeck

/-- Seat 1 of the state `stFirstTrick`: holds the Queen of Spades and
twelve Diamonds (it cannot follow Clubs), including non-point cards. -/
def stFirstTrickP1 : Player :=
  { hand := ⟨Suit.Spades, Rank.Queen⟩ :: ofSuit Suit.Diamonds allRanks.dropLast,
    score := 0, roundScore := 0, cardsToPass := none }

/-- A Hold-round (round 4) state in the middle of the round's FIRST trick:
seat 0 has just led the Two of Clubs (its hand is down to 12 cards), and it
is seat 1's turn at position 2 of the trick.  All 52 cards are accounted
for exactly once across the four hands and the trick, and no trick has
been scored, so this is the first trick of the round. -/
def stFirstTrick : GameState :=
  { players :=
      [ { hand := ofSuit Suit.Clubs (allRanks.drop 1),
          score := 0, roundScore := 0, cardsToPass := none },
        stFirstTrickP1,
        { hand := ofSuit Suit.Hearts allRanks,
          score := 0, roundScore := 0, cardsToPass := none },
        { hand := ⟨Suit.Diamonds, Rank.Ace⟩
            :: ofSuit Suit.Spades (allRanks.filter (fun r => !(r == Rank.Queen))),
          score := 0, roundScore := 0, cardsToPass := none } ],
    currentPlayerIndex := 1,
    currentTrick :=
      { leadingSuit := some Suit.Clubs,
        cards := [(0, ⟨Suit.Clubs, Rank.Two⟩)],
        trickWinnerId := none },
    heartsBroken := false,
    phase := GamePhase.PlayingTrick,
    passingDirection := some PassingDirection.Hold,
    roundNumber := 4 }

/-- Seat used in the legal-move-enumeration counterexample: a single
non-point club, but not the Two of Clubs. -/
def noTwoClubsSeat : Player :=
  { hand := [⟨Suit.Clubs, Rank.Three⟩], score := 0, roundScore := 0, cardsToPass := none }

/-- A `PlayingTrick` state during the first trick (seat 0 still holds 13
cards) with an empty trick, where seat 1 holds one card which is not the
Two of Clubs. -/
def stNoTwoClubs : GameState :=
  { players :=
      [ { hand := ofSuit Suit.Hearts allRanks, score := 0, roundScore := 0, cardsToPass := none },
        noTwoClubsSeat,
        { hand := [], score := 0, roundScore := 0, cardsToPass := none },
        { hand := [], score := 0, roundScore := 0, cardsToPass := none } ],
    currentPlayerIndex := 1,
    currentTrick := createEmptyTrick,
    heartsBroken := false,
    phase := GamePhase.PlayingTrick,
    passingDirection := some PassingDirection.Hold,
    roundNumber := 4 }

/-- The completed trick of spec scenario 4: Clubs led with the 9, then
K♣, 2♦, A♣. -/
def scenario4Trick : Trick :=
  { leadingSuit := some Suit.Clubs,
    cards := [(0, ⟨Suit.Clubs, Rank.Nine⟩), (1, ⟨Suit.Clubs, Rank.King⟩),
              (2, ⟨Suit.Diamonds, Rank.Two⟩), (3, ⟨Suit.Clubs, Rank.Ace⟩)],
    trickWinnerId := none }

/-- A one-entry trick with a set leading suit. -/
def oneEntryTrick : Trick :=
  { leadingSuit := some Suit.Clubs,
    cards := [(0, ⟨Suit.Clubs, Rank.Five⟩)],
    trickWinnerId := none }

/-- The winner scan never leaves the trick: the fold result is the seed
entry or one of the scanned entries. -/
theorem trickStep_fold_mem (s : Suit) (l : List (Nat × Card)) (w0 : Nat × Card) :
    l.foldl (trickStep s) w0 = w0 ∨ l.foldl (trickStep s) w0 ∈ l := by
  induction l generalizing w0 with
  | nil => exact Or.inl rfl
  | cons e l ih =>
    simp only [List.foldl_cons]
    rcases ih (trickStep s w0 e) with h | h
    · rw [h]
      unfold trickStep
      split
      · exact Or.inr (List.mem_cons_self _ _)
      · exact Or.inl rfl
    · exact Or.inr (List.mem_cons_of_mem _ h)

/-- Specification of the winner scan started from a seed of the leading
suit: the result is of the leading suit, its rank bounds the seed's rank
and the rank of every leading-suit entry scanned, and it equals the seed
when no scanned leading-suit entry has a strictly higher rank. -/
theorem trickStep_fold_spec (s : Suit) (l : List (Nat × Card)) :
    ∀ w0 : Nat × Card, w0.2.suit = s →
      (l.foldl (trickStep s) w0).2.suit = s ∧
      rankIdx w0.2.rank ≤ rankIdx (l.foldl (trickStep s) w0).2.rank ∧
      (∀ e ∈ l, e.2.suit = s → rankIdx e.2.rank ≤ rankIdx (l.foldl (trickStep s) w0).2.rank) ∧
      ((∀ e ∈ l, e.2.suit = s → rankIdx e.2.rank ≤ rankIdx w0.2.rank) →
        l.foldl (trickStep s) w0 = w0) := by
  induction l with
  | nil =>
    intro w0 h
    exact ⟨h, Nat.le_refl _, by simp, fun _ => rfl⟩
  | cons e l ih =>
    intro w0 h
    simp only [List.foldl_cons]
    by_cases hc : (e.2.suit == s && decide (rankIdx w0.2.rank < rankIdx e.2.rank)) = true
    · have hstep : trickStep s w0 e = e := by unfold trickStep; rw [if_pos hc]
      rw [hstep]
      have hes : e.2.suit = s := by
        have := (Bool.and_eq_true _ _).mp hc
        exact eq_of_beq this.1
      have hlt : rankIdx w0.2.rank < rankIdx e.2.rank :=
        of_decide_eq_true ((Bool.and_eq_true _ _).mp hc).2
      obtain ⟨h1, h2, h3, h4⟩ := ih e hes
      refine ⟨h1, Nat.le_trans (Nat.le_of_lt hlt) h2, ?_, ?_⟩
      · intro f hf hfs
        rcases List.mem_cons.mp hf with rfl | hf'
        · exact h2
        · exact h3 f hf' hfs
      · intro hall
        exact absurd (hall e (List.mem_cons_self _ _) hes) (Nat.not_le_of_lt hlt)
    · have hstep : trickStep s w0 e = w0 := by unfold trickStep; rw [if_neg hc]
      rw [hstep]
      obtain ⟨h1, h2, h3, h4⟩ := ih w0 h
      refine ⟨h1, h2, ?_, ?_⟩
      · intro f hf hfs
        rcases List.mem_cons.mp hf with rfl | hf'
        · have hnlt : ¬ rankIdx w0.2.rank < rankIdx f.2.rank := by
            intro hlt
            exact hc (by simp [hfs, hlt])
          exact Nat.le_trans (Nat.le_of_not_lt hnlt) h2
        · exact h3 f hf' hfs
      · intro hall
        exact h4 (fun f hf hfs => hall f (List.mem_cons_of_mem _ hf) hfs)

/-- Claim C4: for a completed trick (four entries, set leading suit, the
first entry of the leading suit), the resolver returns a winner that is
the first entry or one of the later entries, always of the leading suit
(so an off-suit entry never becomes the winner regardless of rank), with
rank index at least that of every leading-suit entry of the trick, and
the winner is the first entry unless some later leading-suit entry has a
strictly higher rank. -/
theorem c4_trick_resolution (t : Trick) (s : Suit) (e0 : Nat × Card)
    (rest : List (Nat × Card))
    (hlead : t.leadingSuit = some s) (hcards : t.cards = e0 :: rest)
    (hlen : t.cards.length = 4) (hfirst : e0.2.suit = s) :
    ∃ w, calculateTrickWinner t = some w ∧ (w = e0 ∨ w ∈ rest) ∧ w.2.suit = s ∧
      (∀ e ∈ t.cards, e.2.suit = s → rankIdx e.2.rank ≤ rankIdx w.2.rank) ∧
      ((∀ e ∈ rest, e.2.suit = s → rankIdx e.2.rank ≤ rankIdx e0.2.rank) → w = e0) := by
  obtain ⟨h1, h2, h3, h4⟩ := trickStep_fold_spec s rest e0 hfirst
  refine ⟨rest.foldl (trickStep s) e0, ?_, trickStep_fold_mem s rest e0, h1, ?_, h4⟩
  · unfold calculateTrickWinner
    rw [hlead, hcards]
  · intro e he hes
    rw [hcards] at he
    rcases List.mem_cons.mp he with rfl | he'
    · exact h2
    · exact h3 e he' hes

/-- Witness for C4 at spec scenario 4: [(A,9♣ lead),(B,K♣),(C,2♦),(D,A♣)]
with leading suit Clubs. -/
theorem c4_trick_resolution_witness :
    ∃ w, calculateTrickWinner scenario4Trick = some w ∧
      (w = (0, ⟨Suit.Clubs, Rank.Nine⟩) ∨
        w ∈ [(1, Card.mk Suit.Clubs Rank.King), (2, Card.mk Suit.Diamonds Rank.Two),
             (3, Card.mk Suit.Clubs Rank.Ace)]) ∧
      w.2.suit = Suit.Clubs ∧
      (∀ e ∈ scenario4Trick.cards, e.2.suit = Suit.Clubs →
        rankIdx e.2.rank ≤ rankIdx w.2.rank) ∧
      ((∀ e ∈ [(1, Card.mk Suit.Clubs Rank.King), (2, Card.mk Suit.Diamonds Rank.Two),
               (3, Card.mk Suit.Clubs Rank.Ace)],
          e.2.suit = Suit.Clubs → rankIdx e.2.rank ≤ rankIdx (Card.mk Suit.Clubs Rank.Nine).rank) →
        w = (0, ⟨Suit.Clubs, Rank.Nine⟩)) :=
  c4_trick_resolution scenario4Trick Suit.Clubs (0, ⟨Suit.Clubs, Rank.Nine⟩)
    [(1, Card.mk Suit.Clubs Rank.King), (2, Card.mk Suit.Diamonds Rank.Two),
     (3, Card.mk Suit.Clubs Rank.Ace)]
    rfl rfl (by decide) rfl

/-- Counterexample to claim C7: the resolver does NOT fail on a trick
with fewer than four entries — a one-entry trick whose leading suit is
set resolves to a winner. -/
theorem c7_counterexample :
    calculateTrickWinner oneEntryTrick = some (0, ⟨Suit.Clubs, Rank.Five⟩) ∧
    oneEntryTrick.cards.length = 1 ∧ oneEntryTrick.cards.length < 4 ∧
    oneEntryTrick.leadingSuit.isSome = true := by
  decide

/-- Claim C7 as amended: the resolver fails exactly on a trick with ZERO
entries or an unset leading suit (the guard is `length === 0`, not
`length < 4`). -/
theorem c7_resolver_failure_iff (t : Trick) :
    calculateTrickWinner t = none ↔ (t.cards = [] ∨ t.leadingSuit = none) := by
  rcases t with ⟨ls, cs, w⟩
  cases ls <;> cases cs <;> simp [calculateTrickWinner]

/-- Counterexample to claim C9: with totals [50, 50, 100, 100] both seat 0
and seat 1 attain the minimum, but the `GameOver` payload's winner is the
single seat 0 — seat 1 is not announced as a winner. -/
theorem c9_counterexample :
    endGameWinner [seatWithScore 50, seatWithScore 50, seatWithScore 100, seatWithScore 100]
      = some 0 ∧
    [seatWithScore 50, seatWithScore 50, seatWithScore 100,
      seatWithScore 100].get? 1 = some (seatWithScore 50) ∧
    (∀ q ∈ [seatWithScore 50, seatWithScore 50, seatWithScore 100, seatWithScore 100],
      (seatWithScore 50).score ≤ q.score) ∧
    (0 : Nat) ≠ 1 := by
  decide

/-- Claim C9 as amended: when the game ends on the score limit, the
announced winner is the FIRST seat (in seating order) whose total equals
the minimum; tied seats later in seating order are not announced. -/
theorem c9_first_lowest_seat_wins (p0 p1 p2 p3 : Player)
    (hlim : 100 ≤ p0.score ∨ 100 ≤ p1.score ∨ 100 ≤ p2.score ∨ 100 ≤ p3.score) :
    ∃ i p, endGameWinner [p0, p1, p2, p3] = some i ∧
      [p0, p1, p2, p3].get? i = some p ∧
      (∀ q ∈ [p0, p1, p2, p3], p.score ≤ q.score) ∧
      (∀ j q, j < i → [p0, p1, p2, p3].get? j = some q → p.score < q.score) := by
  clear hlim
  simp only [endGameWinner, endGameWinnerAux]
  split_ifs with h1 h2 h3 h4 h5 h6 h7 <;>
    refine ⟨_, _, rfl, rfl, ?_, ?_⟩ <;>
    first
      | (intro q hq
         simp only [List.mem_cons, List.not_mem_nil, or_false] at hq
         rcases hq with rfl | rfl | rfl | rfl <;> omega)
      | (intro j q hj hq
         interval_cases j <;> simp only [List.get?] at hq <;>
           (injection hq with hq; subst hq; omega))

/-- Witness for the amended C9 at totals [100, 20, 30, 40]. -/
theorem c9_first_lowest_seat_wins_witness :
    ∃ i p, endGameWinner [seatWithScore 100, seatWithScore 20, seatWithScore 30,
        seatWithScore 40] = some i ∧
      [seatWithScore 100, seatWithScore 20, seatWithScore 30, seatWithScore 40].get? i
        = some p ∧
      (∀ q ∈ [seatWithScore 100, seatWithScore 20, seatWithScore 30, seatWithScore 40],
        p.score ≤ q.score) ∧
      (∀ j q, j < i →
        [seatWithScore 100, seatWithScore 20, seatWithScore 30, seatWithScore 40].get? j
          = some q → p.score < q.score) :=
  c9_first_lowest_seat_wins (seatWithScore 100) (seatWithScore 20) (seatWithScore 30)
    (seatWithScore 40) (Or.inl (by decide))

/-- Claim C5: at round scoring with the round's 26 points fully
distributed across the four seats, if exactly one seat holds round score
26 then that seat's total gains 0 and every other seat's total gains 26;
otherwise every seat's total gains its own round score. -/
theorem c5_shoot_the_moon_scoring (p0 p1 p2 p3 : Player)
    (hsum : p0.roundScore + p1.roundScore + p2.roundScore + p3.roundScore = 26) :
    ((∃! i : Fin 4, ([p0, p1, p2, p3].get i).roundScore = 26) →
       endRoundScores [p0, p1, p2, p3]
         = [p0, p1, p2, p3].map (fun p =>
             if p.roundScore = 26 then { p with score := p.score + 0 }
             else { p with score := p.score + 26 })) ∧
    ((¬ ∃! i : Fin 4, ([p0, p1, p2, p3].get i).roundScore = 26) →
       endRoundScores [p0, p1, p2, p3]
         = [p0, p1, p2, p3].map (fun p => { p with score := p.score + p.roundScore })) := by
  by_cases h0 : p0.roundScore = 26 <;> by_cases h1 : p1.roundScore = 26 <;>
    by_cases h2 : p2.roundScore = 26 <;> by_cases h3 : p3.roundScore = 26 <;>
    try (exfalso; omega)
  · constructor
    · intro _
      simp [endRoundScores, findShooter, bumpOthers, beq_iff_eq, h0, h1, h2, h3]
    · intro hne
      exact absurd ⟨0, h0, by
        intro j hj
        fin_cases j <;> simp_all [show ((3 : Fin 4) : Nat) = 3 from rfl]⟩ hne
  · constructor
    · intro _
      simp [endRoundScores, findShooter, bumpOthers, beq_iff_eq, h0, h1, h2, h3]
    · intro hne
      exact absurd ⟨1, h1, by
        intro j hj
        fin_cases j <;> simp_all [show ((3 : Fin 4) : Nat) = 3 from rfl]⟩ hne
  · constructor
    · intro _
      simp [endRoundScores, findShooter, bumpOthers, beq_iff_eq, h0, h1, h2, h3]
    · intro hne
      exact absurd ⟨2, h2, by
        intro j hj
        fin_cases j <;> simp_all [show ((3 : Fin 4) : Nat) = 3 from rfl]⟩ hne
  · constructor
    · intro _
      simp [endRoundScores, findShooter, bumpOthers, beq_iff_eq, h0, h1, h2, h3]
    · intro hne
      exact absurd ⟨3, h3, by
        intro j hj
        fin_cases j <;> simp_all [show ((3 : Fin 4) : Nat) = 3 from rfl]⟩ hne
  · constructor
    · intro hex
      obtain ⟨i, hi, -⟩ := hex
      exfalso
      fin_cases i <;> simp_all [show ((3 : Fin 4) : Nat) = 3 from rfl]
    · intro _
      simp [endRoundScores, findShooter, beq_iff_eq, h0, h1, h2, h3]

/-- Witness for C5: seat 0 shot the moon (round score 26, others 0). -/
theorem c5_shoot_the_moon_scoring_witness :
    ((∃! i : Fin 4,
        ([{ seatWithScore 10 with roundScore := 26 }, seatWithScore 20, seatWithScore 30,
            seatWithScore 40].get i).roundScore = 26) →
       endRoundScores [{ seatWithScore 10 with roundScore := 26 }, seatWithScore 20,
           seatWithScore 30, seatWithScore 40]
         = [{ seatWithScore 10 with roundScore := 26 }, seatWithScore 20, seatWithScore 30,
             seatWithScore 40].map (fun p =>
             if p.roundScore = 26 then { p with score := p.score + 0 }
             else { p with score := p.score + 26 })) ∧
    ((¬ ∃! i : Fin 4,
        ([{ seatWithScore 10 with roundScore := 26 }, seatWithScore 20, seatWithScore 30,
            seatWithScore 40].get i).roundScore = 26) →
       endRoundScores [{ seatWithScore 10 with roundScore := 26 }, seatWithScore 20,
           seatWithScore 30, seatWithScore 40]
         = [{ seatWithScore 10 with roundScore := 26 }, seatWithScore 20, seatWithScore 30,
             seatWithScore 40].map (fun p => { p with score := p.score + p.roundScore })) :=
  c5_shoot_the_moon_scoring { seatWithScore 10 with roundScore := 26 } (seatWithScore 20)
    (seatWithScore 30) (seatWithScore 40) (by decide)

/-- A list with some element satisfying `p` has a `find?` result. -/
theorem find?_isSome_of_any {α : Type} (p : α → Bool) :
    ∀ l : List α, l.any p = true → ∃ c, l.find? p = some c := by
  intro l
  induction l with
  | nil => intro h; simp at h
  | cons a l ih =>
    intro h
    by_cases hp : p a = true
    · exact ⟨a, by rw [List.find?_cons_of_pos _ hp]⟩
    · have ha : l.any p = true := by
        simp only [List.any_cons] at h
        rcases Bool.or_eq_true _ _ |>.mp h with h' | h'
        · exact absurd h' hp
        · exact h'
      obtain ⟨c, hc⟩ := ih ha
      exact ⟨c, by rw [List.find?_cons_of_neg _ (by simp [hp]), hc]⟩

/-- Claim C2 as amended: for every state and every seat with a non-empty
hand, the legal-move enumeration is non-empty — EXCEPT when it is the
first trick, the trick is empty, and the seat does not hold the Two of
Clubs, in which case the source's early return yields the empty list,
bypassing the full-hand fallback. -/
theorem c2_legal_moves_nonempty (g : GameState) (p : Player)
    (hne : p.hand ≠ [])
    (hexc : isFirstTrick g = true → g.currentTrick.cards = [] →
      p.hand.any (fun c => c.rank == Rank.Two && c.suit == Suit.Clubs) = true) :
    calculateValidMoves g p ≠ [] := by
  unfold calculateValidMoves
  by_cases hft : (isFirstTrick g && g.currentTrick.cards.isEmpty) = true
  · obtain ⟨hf, hcell⟩ := Bool.and_eq_true _ _ |>.mp hft
    obtain ⟨c, hc⟩ := find?_isSome_of_any _ _ (hexc hf (List.isEmpty_iff.mp hcell))
    simp only [hft, if_true, hc]
    simp
  · simp only [hft]
    simp only [Bool.false_eq_true, if_false]
    split_ifs with hnf hvm hemp
    · exact List.length_pos.mp hvm
    · exact hne
    · exact hne
    · intro hv
      apply hemp
      rw [hv]
      simpa using List.length_pos.mpr hne

/-- Counterexample to claim C2 as stated: in `stNoTwoClubs` (phase
`PlayingTrick`, first trick, empty trick) seat 1 has the non-empty hand
[3♣] without the Two of Clubs, and the enumeration returns the empty
list rather than a non-empty set or the full-hand fallback. -/
theorem c2_counterexample :
    stNoTwoClubs.phase = GamePhase.PlayingTrick ∧
    stNoTwoClubs.players.get? 1 = some noTwoClubsSeat ∧
    noTwoClubsSeat.hand ≠ [] ∧
    calculateValidMoves stNoTwoClubs noTwoClubsSeat = [] := by
  decide

/-- A seat holding only the Two of Clubs, used to witness the amended C2. -/
def twoClubsSeat : Player :=
  { hand := [⟨Suit.Clubs, Rank.Two⟩], score := 0, roundScore := 0, cardsToPass := none }

/-- State `stNoTwoClubs` with seat 1 replaced by the Two-of-Clubs holder. -/
def stTwoClubsLead : GameState :=
  { stNoTwoClubs with players := stNoTwoClubs.players.set 1 twoClubsSeat }

/-- Witness for the amended C2: the Two-of-Clubs holder leading the first
trick gets a non-empty move list. -/
theorem c2_legal_moves_nonempty_witness :
    calculateValidMoves stTwoClubsLead twoClubsSeat ≠ [] :=
  c2_legal_moves_nonempty stTwoClubsLead twoClubsSeat (by decide)
    (fun _ _ => by decide)

/-- A hand containing a card has a successful `spliceFirst`. -/
theorem spliceFirst_isSome_of_any (card : Card) :
    ∀ l : List Card, l.any (fun c => c == card) = true →
      ∃ r, spliceFirst card l = some r := by
  intro l
  induction l with
  | nil => intro h; simp at h
  | cons a l ih =>
    intro h
    by_cases ha : (a == card) = true
    · exact ⟨l, by simp [spliceFirst, ha]⟩
    · have h' : l.any (fun c => c == card) = true := by
        simp only [List.any_cons] at h
        rcases Bool.or_eq_true _ _ |>.mp h with hx | hx
        · exact absurd hx ha
        · exact hx
      obtain ⟨r, hr⟩ := ih h'
      exact ⟨a :: r, by simp [spliceFirst, ha, hr]⟩

/-- A play that passes validation is in the hand (the validator's first
check). -/
theorem validPlay_in_hand (g : GameState) (p : Player) (card : Card)
    (hv : validPlayCheck g p card = none) :
    p.hand.any (fun c => c == card) = true := by
  by_contra h
  have h' : p.hand.any (fun c => c == card) = false := by
    cases hh : p.hand.any (fun c => c == card)
    · rfl
    · exact absurd hh h
  unfold validPlayCheck at hv
  simp only [h'] at hv
  simp at hv

/-- The synchronous part of trick resolution never touches the
hearts-broken flag. -/
theorem endTrickSync_heartsBroken (g : GameState) (s : Nat) :
    (endTrickSync g s).1.heartsBroken = g.heartsBroken := by
  unfold endTrickSync
  cases h1 : calculateTrickWinner g.currentTrick with
  | none => simp [h1]
  | some wc =>
    cases h2 : g.players.get? wc.1 with
    | none =>
      rw [List.get?_eq_getElem?] at h2
      simp [h1, h2]
    | some wp =>
      rw [List.get?_eq_getElem?] at h2
      simp [h1, h2]

/-- Claim C10: for every accepted play, the hearts-broken flag after the
play is the old flag OR'd with "the played card is a Heart"; in
particular the Queen of Spades never sets it (that block of the source
is commented out). -/
theorem c10_hearts_broken_update (g : GameState) (seat : Nat) (p : Player) (card : Card)
    (hp : g.players.get? seat = some p)
    (hv : validPlayCheck g p card = none) :
    (handlePlayCard g seat card).1.heartsBroken
      = (g.heartsBroken || card.suit == Suit.Hearts) := by
  obtain ⟨r, hsp⟩ := spliceFirst_isSome_of_any card p.hand (validPlay_in_hand g p card hv)
  unfold handlePlayCard
  simp only [hp, hv, hsp]
  split_ifs <;>
    (cases hgb : g.heartsBroken <;> cases hcs : card.suit == Suit.Hearts <;>
      simp_all [endTrickSync_heartsBroken])

/-- A four-seat mid-trick state used as the C10 witness: Clubs led, seat
1 to play holding K♣ and 2♦. -/
def stMidTrick : GameState :=
  { players :=
      [ { hand := [⟨Suit.Hearts, Rank.Two⟩], score := 0, roundScore := 0, cardsToPass := none },
        { hand := [⟨Suit.Clubs, Rank.King⟩, ⟨Suit.Diamonds, Rank.Two⟩],
          score := 0, roundScore := 0, cardsToPass := none },
        { hand := [⟨Suit.Hearts, Rank.Three⟩], score := 0, roundScore := 0, cardsToPass := none },
        { hand := [⟨Suit.Hearts, Rank.Four⟩], score := 0, roundScore := 0, cardsToPass := none } ],
    currentPlayerIndex := 1,
    currentTrick :=
      { leadingSuit := some Suit.Clubs, cards := [(0, ⟨Suit.Clubs, Rank.Five⟩)],
        trickWinnerId := none },
    heartsBroken := false,
    phase := GamePhase.PlayingTrick,
    passingDirection := some PassingDirection.Hold,
    roundNumber := 4 }

/-- Witness for C10: an accepted K♣ play in `stMidTrick` leaves hearts
unbroken. -/
theorem c10_hearts_broken_update_witness :
    (handlePlayCard stMidTrick 1 ⟨Suit.Clubs, Rank.King⟩).1.heartsBroken
      = (stMidTrick.heartsBroken || (Card.mk Suit.Clubs Rank.King).suit == Suit.Hearts) :=
  c10_hearts_broken_update stMidTrick 1
    { hand := [⟨Suit.Clubs, Rank.King⟩, ⟨Suit.Diamonds, Rank.Two⟩],
      score := 0, roundScore := 0, cardsToPass := none }
    ⟨Suit.Clubs, Rank.King⟩ (by decide) (by decide)

/-- Claim C1 evaluated at its failing input: `stFirstTrick` is mid way
through the round's first trick (52 cards conserved, one card in the
trick, no round score yet), seat 1 holds non-point cards (Diamonds), yet
the validator ACCEPTS its Queen of Spades because the first-trick
heuristic (`playerOrder[0]` hand length 13) already turned false when
seat 0 led, and the full message path plays the card. -/
theorem c1_first_trick_points_accepted :
    (cardsUnion stFirstTrick).length = 52 ∧
    (cardsUnion stFirstTrick).Nodup ∧
    stFirstTrick.currentTrick.cards.length = 1 ∧
    (stFirstTrick.players.map (fun p => p.roundScore)).sum = 0 ∧
    stFirstTrick.players.get? 1 = some stFirstTrickP1 ∧
    stFirstTrickP1.hand.any (fun c => getCardValue c == 0) = true ∧
    validPlayCheck stFirstTrick stFirstTrickP1 qSpades = none ∧
    hasError (handleMessage stFirstTrick 1 (ClientMsg.playCard qSpades)).2 = false ∧
    ((handleMessage stFirstTrick 1 (ClientMsg.playCard qSpades)).1.players.get? 1).map
      (fun p => p.hand.length) = some 12 := by
  decide

/-- The duplicate pass selection of the C3/C6 failing input: three copies
of the Four of Clubs, a card seat 0 holds exactly once after the deal. -/
def dupPassMsg : ClientMsg :=
  ClientMsg.selectCardsToPass [fourClubs, fourClubs, fourClubs]

/-- Claim C3 evaluated at its failing input: from the freshly dealt
round-1 state (52 distinct cards in play), the pass-selection command
submitting [4♣, 4♣, 4♣] is ACCEPTED (no error message), and afterwards
the multiset union of hands, trick and pass staging has 54 cards — no
longer the 52-card deck. -/
theorem c3_conservation_broken :
    (cardsUnion g0deal).length = 52 ∧
    (cardsUnion g0deal).Nodup ∧
    g0deal.phase = GamePhase.Passing ∧
    hasError (handleMessage g0deal 0 dupPassMsg).2 = false ∧
    (cardsUnion (handleMessage g0deal 0 dupPassMsg).1).length = 54 ∧
    ¬ (cardsUnion (handleMessage g0deal 0 dupPassMsg).1).Nodup := by
  decide

/-- Seat 1's (legitimate, distinct) pass selection in the C6 scenario. -/
def passMsg1 : ClientMsg := ClientMsg.selectCardsToPass
  [⟨Suit.Hearts, Rank.Three⟩, ⟨Suit.Hearts, Rank.Seven⟩, ⟨Suit.Hearts, Rank.Jack⟩]

/-- Seat 2's (legitimate, distinct) pass selection in the C6 scenario. -/
def passMsg2 : ClientMsg := ClientMsg.selectCardsToPass
  [⟨Suit.Hearts, Rank.Four⟩, ⟨Suit.Hearts, Rank.Eight⟩, ⟨Suit.Hearts, Rank.Queen⟩]

/-- Seat 3's (legitimate, distinct) pass selection in the C6 scenario. -/
def passMsg3 : ClientMsg := ClientMsg.selectCardsToPass
  [⟨Suit.Hearts, Rank.Five⟩, ⟨Suit.Hearts, Rank.Nine⟩, ⟨Suit.Hearts, Rank.King⟩]

/-- The round-1 state after seats 1, 2, 3 submit their selections. -/
def gAfterThreePasses : GameState :=
  (handleMessage (handleMessage (handleMessage g0deal 1 passMsg1).1 2 passMsg2).1 3 passMsg3).1

/-- The state and messages after seat 0's duplicate selection completes
the collection and `executePassing` runs (round 1, direction Left). -/
def gAfterPassing : GameState × List (Dest × OutMsg) :=
  handleMessage gAfterThreePasses 0 dupPassMsg

/-- Claim C6 evaluated at its failing input: all four submissions are
accepted (seat 0's being [4♣, 4♣, 4♣]), passing executes and play
begins, yet seat 0's hand has 15 cards — not 13 — and seat 1's hand
contains the Four of Clubs three times. -/
theorem c6_passing_hand_sizes_broken :
    hasError (handleMessage g0deal 1 passMsg1).2 = false ∧
    hasError (handleMessage (handleMessage g0deal 1 passMsg1).1 2 passMsg2).2 = false ∧
    hasError (handleMessage (handleMessage (handleMessage g0deal 1 passMsg1).1 2
      passMsg2).1 3 passMsg3).2 = false ∧
    hasError gAfterPassing.2 = false ∧
    gAfterPassing.1.phase = GamePhase.PlayingTrick ∧
    (gAfterPassing.1.players.map (fun p => p.hand.length)) = [15, 13, 13, 13] ∧
    (gAfterPassing.1.players.get? 1).map (fun p => p.hand.countP (fun c => c == fourClubs))
      = some 3 := by
  decide

/-- Predicate `hasError` distributes over concatenation of outbound batches. -/
theorem hasError_append (a b : List (Dest × OutMsg)) :
    hasError (a ++ b) = (hasError a || hasError b) := by
  simp [hasError, List.any_append]

/-- A turn notification is never an error message. -/
theorem hasError_notify (g : GameState) :
    hasError (notifyCurrentPlayerTurn g) = false := by
  unfold notifyCurrentPlayerTurn
  cases h : getCurrentPlayerId g with
  | none => rfl
  | some pid =>
    cases hph : (g.phase == GamePhase.PlayingTrick) <;> simp [hasError, hph]

/-- The per-seat `CardsPassed` notifications are never errors. -/
theorem hasError_passMsgs (n : Nat) :
    hasError ((List.range n).map (fun j => (Dest.one j, OutMsg.cardsPassed))) = false := by
  simp [hasError, List.any_map]

/-- Function `executePassing` emits no error message. -/
theorem hasError_executePassing (g : GameState) :
    hasError (executePassing g).2 = false := by
  unfold executePassing
  cases hd : g.passingDirection with
  | none => rfl
  | some dir =>
    cases dir <;>
      first
        | rfl
        | (simp only [hasError_append, hasError_passMsgs, hasError_notify, Bool.or_self,
            Bool.false_or, Bool.or_false]
           rfl)

/-- A successful pass-selection submission emits no error message. -/
theorem handlePassCards_ok_no_error (g : GameState) (seat : Nat) (cs : List Card)
    (r : GameState × List (Dest × OutMsg))
    (h : handlePassCards g seat cs = Except.ok r) :
    hasError r.2 = false := by
  unfold handlePassCards at h
  split_ifs at h
  cases hg : g.players.get? seat with
  | none =>
    rw [hg] at h
    simp only [Except.ok.injEq] at h
    subst h
    rfl
  | some p =>
    rw [hg] at h
    dsimp only at h
    split_ifs at h with h1 h2 h3
    · simp only [Except.ok.injEq] at h
      subst h
      rw [hasError_append, hasError_executePassing]
      rfl
    · simp only [Except.ok.injEq] at h
      subst h
      rfl

/-- A list index that holds a value is in range. -/
theorem get?_some_lt {α : Type} (l : List α) (n : Nat) (a : α)
    (h : l.get? n = some a) : n < l.length := by
  by_contra hlt
  rw [List.get?_eq_none.mpr (Nat.le_of_not_lt hlt)] at h
  cases h

/-- On a non-empty trick whose leading suit is set and whose entries name
existing seats, the synchronous trick resolution emits exactly the
`TrickWon` broadcast. -/
theorem endTrickSync_msgs (g : GameState) (s : Nat)
    (hne : g.currentTrick.cards ≠ [])
    (hlead : g.currentTrick.leadingSuit.isSome = true)
    (hids : ∀ e ∈ g.currentTrick.cards, e.1 < g.players.length) :
    (endTrickSync g s).2 = [(Dest.all, OutMsg.trickWon)] := by
  obtain ⟨ls, hls⟩ := Option.isSome_iff_exists.mp hlead
  obtain ⟨e0, rest, hc⟩ := List.exists_cons_of_ne_nil hne
  have hw : calculateTrickWinner g.currentTrick = some (rest.foldl (trickStep ls) e0) := by
    unfold calculateTrickWinner
    rw [hls, hc]
  have hmem : (rest.foldl (trickStep ls) e0) ∈ g.currentTrick.cards := by
    rcases trickStep_fold_mem ls rest e0 with h | h
    · rw [hc, h]
      exact List.mem_cons_self _ _
    · rw [hc]
      exact List.mem_cons_of_mem _ h
  have hlt : (rest.foldl (trickStep ls) e0).1 < g.players.length := hids _ hmem
  have hwp : g.players.get? (rest.foldl (trickStep ls) e0).1
      = some (g.players.get ⟨(rest.foldl (trickStep ls) e0).1, hlt⟩) :=
    List.get?_eq_get hlt
  rw [List.get?_eq_getElem?] at hwp
  unfold endTrickSync
  simp [hw, hwp]

/-- An accepted play emits no error message, provided the pre-state's
trick is empty or has its leading suit set, and every trick entry names
an existing seat. -/
theorem handlePlayCard_success_no_error (g : GameState) (seat : Nat) (card : Card)
    (p : Player) (newHand : List Card)
    (hg : g.players.get? seat = some p)
    (hv : validPlayCheck g p card = none)
    (hsp : spliceFirst card p.hand = some newHand)
    (hlead : g.currentTrick.cards = [] ∨ g.currentTrick.leadingSuit.isSome = true)
    (hids : ∀ e ∈ g.currentTrick.cards, e.1 < g.players.length) :
    hasError (handlePlayCard g seat card).2 = false := by
  have hseat : seat < g.players.length := get?_some_lt _ _ _ hg
  unfold handlePlayCard
  simp only [hg, hv, hsp]
  set L := (if ((g.currentTrick.cards ++ [(seat, card)]).length == 1) = true
      then some card.suit else g.currentTrick.leadingSuit) with hL
  have hLs : L.isSome = true := by
    rw [hL]
    rcases hlead with hEmpty | hSome
    · rw [hEmpty]
      rfl
    · by_cases hone : ((g.currentTrick.cards ++ [(seat, card)]).length == 1) = true
      · rw [if_pos hone]
        rfl
      · rw [if_neg hone]
        exact hSome
  set HB := (if (card.suit == Suit.Hearts && !g.heartsBroken) = true
      then true else g.heartsBroken) with hHB
  split_ifs with hfull
  · rw [endTrickSync_msgs]
    · rfl
    · simp
    · exact hLs
    · intro e he
      replace he : e ∈ g.currentTrick.cards ++ [(seat, card)] := he
      show e.1 < (g.players.set seat { p with hand := newHand }).length
      rw [List.length_set]
      rcases List.mem_append.mp he with hm | hm
      · exact hids e hm
      · simp only [List.mem_singleton] at hm
        subst hm
        exact hseat
  · rw [hasError_append, hasError_notify]
    rfl

/-- A play command that produces an error leaves the state unchanged and
addresses the error only to the playing seat. -/
theorem handlePlayCard_reject (g : GameState) (seat : Nat) (card : Card)
    (hlead : g.currentTrick.cards = [] ∨ g.currentTrick.leadingSuit.isSome = true)
    (hids : ∀ e ∈ g.currentTrick.cards, e.1 < g.players.length)
    (hrej : hasError (handlePlayCard g seat card).2 = true) :
    (handlePlayCard g seat card).1 = g ∧
    ∀ d s, (d, OutMsg.error s) ∈ (handlePlayCard g seat card).2 → d = Dest.one seat := by
  cases hg : g.players.get? seat with
  | none =>
    unfold handlePlayCard at hrej
    simp only [hg] at hrej
    simp [hasError] at hrej
  | some p =>
    cases hv : validPlayCheck g p card with
    | some msg =>
      unfold handlePlayCard at hrej ⊢
      simp only [hg, hv] at hrej ⊢
      refine ⟨by first | rfl | trivial, ?_⟩
      intro d s hmem
      simp only [List.mem_singleton, Prod.mk.injEq] at hmem
      exact hmem.1
    | none =>
      cases hsp : spliceFirst card p.hand with
      | none =>
        unfold handlePlayCard at hrej ⊢
        simp only [hg, hv, hsp] at hrej ⊢
        refine ⟨by first | rfl | trivial, ?_⟩
        intro d s hmem
        simp only [List.mem_singleton, Prod.mk.injEq] at hmem
        exact hmem.1
      | some newHand =>
        rw [handlePlayCard_success_no_error g seat card p newHand hg hv hsp hlead hids] at hrej
        simp at hrej

/-- Claim C8: every command the core rejects (wrong phase, out of turn,
illegal play, invalid pass selection — anything that produces an error
message) leaves the game state unchanged, and every error message is
addressed to the offending participant only.  The two state-shape
hypotheses are the data-model invariants of the trick: the leading suit
is set as soon as a card is in the trick, and trick entries name
existing seats. -/
theorem c8_rejection_no_mutation (g : GameState) (pid : Nat) (m : ClientMsg)
    (hlead : g.currentTrick.cards = [] ∨ g.currentTrick.leadingSuit.isSome = true)
    (hids : ∀ e ∈ g.currentTrick.cards, e.1 < g.players.length)
    (hrej : hasError (handleMessage g pid m).2 = true) :
    (handleMessage g pid m).1 = g ∧
    ∀ d s, (d, OutMsg.error s) ∈ (handleMessage g pid m).2 → d = Dest.one pid := by
  cases hg : g.players.get? pid with
  | none =>
    unfold handleMessage at hrej
    simp only [hg] at hrej
    simp [hasError] at hrej
  | some q =>
    cases m with
    | selectCardsToPass cs =>
      unfold handleMessage at hrej ⊢
      simp only [hg] at hrej ⊢
      by_cases hph : (g.phase == GamePhase.Passing) = true
      · rw [if_pos hph] at hrej ⊢
        cases hpc : handlePassCards g pid cs with
        | ok r =>
          simp only [hpc] at hrej ⊢
          rw [handlePassCards_ok_no_error g pid cs r hpc] at hrej
          simp at hrej
        | error msg =>
          simp only [hpc] at hrej ⊢
          refine ⟨by first | rfl | trivial, ?_⟩
          intro d s hmem
          simp only [List.mem_singleton, Prod.mk.injEq] at hmem
          exact hmem.1
      · rw [if_neg hph] at hrej ⊢
        refine ⟨by first | rfl | trivial, ?_⟩
        intro d s hmem
        simp only [List.mem_singleton, Prod.mk.injEq] at hmem
        exact hmem.1
    | playCard card =>
      unfold handleMessage at hrej ⊢
      simp only [hg] at hrej ⊢
      by_cases hcond : (g.phase == GamePhase.PlayingTrick
          && getCurrentPlayerId g == some pid) = true
      · rw [if_pos hcond] at hrej ⊢
        exact handlePlayCard_reject g pid card hlead hids hrej
      · rw [if_neg hcond] at hrej ⊢
        refine ⟨by first | rfl | trivial, ?_⟩
        intro d s hmem
        simp only [List.mem_singleton, Prod.mk.injEq] at hmem
        exact hmem.1

/-- Witness for C8: an out-of-turn play (seat 0 while seat 1 is to act)
in `stMidTrick` is rejected with no state change and the reason sent
only to seat 0. -/
theorem c8_rejection_no_mutation_witness :
    (handleMessage stMidTrick 0 (ClientMsg.playCard ⟨Suit.Hearts, Rank.Two⟩)).1
      = stMidTrick ∧
    ∀ d s, (d, OutMsg.error s)
        ∈ (handleMessage stMidTrick 0 (ClientMsg.playCard ⟨Suit.Hearts, Rank.Two⟩)).2 →
      d = Dest.one 0 :=
  c8_rejection_no_mutation stMidTrick 0 (ClientMsg.playCard ⟨Suit.Hearts, Rank.Two⟩)
    (Or.inr (by decide)) (by decide) (by decide)
